import Mathlib

/-!
Shallow embedding of `src/gridcontrol.js` from Arkotek/pm2-intercom.

The file models the peer-coordination engine of `GridControl`:
the `sync:done` handler, the readiness barrier, the self-healing
re-discovery loop, `startDiscovery`/`stopDiscovery`, the replica-side
`sync` handler, `askAllPeersToSync`/`askPeerToSync`, the rendezvous key
derivation, and the `trigger` handler.  Pure data is embedded as Lean
structures; event-driven handlers are embedded as functions from their
inputs (message payload, collaborator results, relevant node state) to
their state updates and emitted actions.
-/

/-- Fields of `router.identity` used by the synchronization protocol:
the remote peer's name, its public ip, and the per-router
`synchronized` flag that the master flips on a matching `sync:done`. -/
structure RouterId where
  name : String
  public_ip : String
  synchronized : Bool
deriving DecidableEq

/-- Task metadata ferried by the sync protocol (`data.meta`):
`instances`, `json_conf`, `task_folder`, `env`, and the `base_folder`
that the replica fills in after unpacking (absent until then). -/
structure TaskMeta where
  instances : Nat
  json_conf : String
  task_folder : String
  env : String
  base_folder : Option String
deriving DecidableEq

/-- Payload of the `sync` message built in `askPeerToSync`:
`{public_ip, private_ip, meta, curr_md5}`. -/
structure SyncMsg where
  public_ip : String
  private_ip : String
  meta : TaskMeta
  curr_md5 : String
deriving DecidableEq

/-- The master-side node state read by `askPeerToSync`: its own ips, the
task metadata (`task_manager.getTaskMeta()`), the current payload
fingerprint (`file_manager.getCurrentMD5()`) and the raw payload bytes
(`file_manager.current_file_buff`). -/
structure MasterView where
  public_ip : String
  private_ip : String
  task_meta : TaskMeta
  current_md5 : String
  file_buff : List Nat
deriving DecidableEq

/-- The `sync` payload plus binary attachment sent by `askPeerToSync`
(`router.send` with the structured payload and the file buffer). -/
def mkSyncMsg (st : MasterView) : SyncMsg × List Nat :=
  (⟨st.public_ip, st.private_ip, st.task_meta, st.current_md5⟩, st.file_buff)

/-- The master's `sync:done` handler (gridcontrol.js lines 301-307):
`if (data.synced_md5 == that.file_manager.getCurrentMD5())
   router.identity.synchronized = true;`
Inputs: the router's current `synchronized` flag, the fingerprint
reported in the message, and the master's current fingerprint at
handling time.  Output: the new value of the flag. -/
def syncDoneHandler (synchronized : Bool) (synced_md5 current_md5 : String) : Bool :=
  if synced_md5 = current_md5 then true else synchronized

/-- `askPeerToSync(router)` (gridcontrol.js lines 402-414): sends the
`sync` offer built from the master view to the given router.  Embedded
as the pair (target router name, message sent). -/
def askPeerToSync (st : MasterView) (r : RouterId) : String × SyncMsg × List Nat :=
  (r.name, mkSyncMsg st)

/-- `askAllPeersToSync()` (gridcontrol.js lines 386-393): for every
router of the socket pool, set `router.identity.synchronized = false`
and call `askPeerToSync(router)`.  Embedded as the updated router list
together with the list of sent offers. -/
def askAllPeersToSync (st : MasterView) (routers : List RouterId) :
    List RouterId × List (String × SyncMsg × List Nat) :=
  (routers.map fun r => { r with synchronized := false },
   routers.map fun r => askPeerToSync st r)

/-- A running discovery session (`this.Interplanetary`), present only
after `startDiscovery` has assigned it; the field records the topic key
it joined. -/
structure DiscoverySession where
  key : String
deriving DecidableEq

/-- `stopDiscovery()` (gridcontrol.js lines 247-249):
`this.Interplanetary.close();`.  Before any `startDiscovery` call the
`Interplanetary` property is undefined, so the member access throws a
TypeError; afterwards it closes the session.  Embedded over
`Option DiscoverySession` with the thrown exception as `Except.error`. -/
def stopDiscovery : Option DiscoverySession → Except String Unit
  | none => Except.error "TypeError: Cannot read property close of undefined"
  | some _ => Except.ok ()

/-- Payload of an incoming `trigger` message: `{task_id, data, opts}`. -/
structure TriggerPacket where
  task_id : String
  data : String
  opts : String
deriving DecidableEq

/-- The request object handed to `task_manager.triggerTask`:
`{task_id, task_data, task_opts}`. -/
structure TaskRequest where
  task_id : String
  task_data : String
  task_opts : String
deriving DecidableEq

/-- The `trigger` handler (gridcontrol.js lines 279-296).  `test_env`
is `process.env.NODE_ENV == 'test'`; `triggerTask` is the external
task-execution collaborator, returning the `(err, res)` pair it passes
to its callback.  In test mode the handler replies `cb()` immediately
(no error, no result) without consulting the collaborator; otherwise it
forwards the collaborator's `(err, res)` verbatim. -/
def triggerHandler (test_env : Bool) (packet : TriggerPacket)
    (triggerTask : TaskRequest → Option String × Option String) :
    Option String × Option String :=
  if test_env then (none, none)
  else triggerTask ⟨packet.task_id, packet.data, packet.opts⟩

/-- Lower-case hexadecimal digit for a value below 16, as produced by
Node's `Buffer.prototype.toString('hex')`. -/
def hexDigit (n : Nat) : Char :=
  if n < 10 then Char.ofNat (48 + n) else Char.ofNat (87 + n)

/-- Two hex characters encoding one byte. -/
def byteToHex (b : Nat) : List Char :=
  [hexDigit (b / 16), hexDigit (b % 16)]

/-- `buffer.toString('hex')` over a byte list. -/
def bufferToHex : List Nat → List Char
  | [] => []
  | b :: bs => byteToHex b ++ bufferToHex bs

/-- The fixed tag appended to the namespace before hashing into a topic
key (gridcontrol.js line 217): the bytes of `":square-node:unik"`. -/
def suffixTag : List Nat :=
  ":square-node:unik".data.map Char.toNat

/-- Key derivation of `startDiscovery` (gridcontrol.js lines 217, 226):
`new Buffer(this.namespace + ':square-node:unik').toString('hex')`.
The namespace is taken as its byte sequence (Buffer encodes the JS
string; the encoding of the concatenation is the concatenation of the
encodings). -/
def deriveNamespaceKey (ns_bytes : List Nat) : List Char :=
  bufferToHex (ns_bytes ++ suffixTag)

/-- Value of a lower-case hex character, inverse of `hexDigit`. -/
def hexVal (c : Char) : Nat :=
  if 97 ≤ c.toNat then c.toNat - 87 else c.toNat - 48

/-- Decode a hex string two characters at a time. -/
def decodeHex : List Char → List Nat
  | c1 :: c2 :: rest => (16 * hexVal c1 + hexVal c2) :: decodeHex rest
  | _ => []

/-- Result of a successful `file_manager.synchronize` callback: the
metadata with the unpack destination folder. -/
structure FMeta where
  dest_folder : String
deriving DecidableEq

/-- Replica-side node state relevant to the `sync` handler: the value
the local `file_manager.getCurrentMD5()` would return.  The source
handler never consults it (the broadcast echoes the offer's
`curr_md5`); it is carried so theorems can compare the two. -/
structure ReplicaView where
  fm_current_md5 : String
deriving DecidableEq

/-- Observable actions of the replica-side `sync` handler. -/
inductive PAction where
  | synchronizeCall
  | logError (e : String)
  | setTaskMeta (m : TaskMeta)
  | emitFilesSynchronized
  | initTaskGroup (m : TaskMeta)
  | broadcast (event : String) (synced_md5 : String)
deriving DecidableEq

/-- The replica's `sync` handler (gridcontrol.js lines 312-349).  It
calls `file_manager.synchronize(data, file, cb)` once; `syncResult` is
what that external collaborator passes to the callback.  On error it
only logs.  On success it sets `data.meta.base_folder` to the unpack
folder, hands the metadata to `task_manager.setTaskMeta`, emits
`files:synchronized`, and broadcasts `sync:done{synced_md5:
data.curr_md5}` to the socket pool — directly in test mode, after
`task_manager.initTaskGroup` otherwise. -/
def syncHandler (st : ReplicaView) (data : SyncMsg)
    (syncResult : Except String FMeta) (test_env : Bool) : List PAction :=
  PAction.synchronizeCall ::
  match syncResult with
  | Except.error e => [PAction.logError e]
  | Except.ok meta =>
    let m2 := { data.meta with base_folder := some meta.dest_folder }
    if test_env then
      [PAction.setTaskMeta m2, PAction.emitFilesSynchronized,
       PAction.broadcast "sync:done" data.curr_md5]
    else
      [PAction.setTaskMeta m2, PAction.emitFilesSynchronized,
       PAction.initTaskGroup m2,
       PAction.broadcast "sync:done" data.curr_md5]

/-- Fingerprints broadcast under `sync:done` in an action trace. -/
def syncDoneBroadcasts : List PAction → List String
  | [] => []
  | PAction.broadcast e md5 :: rest =>
      if e = "sync:done" then md5 :: syncDoneBroadcasts rest
      else syncDoneBroadcasts rest
  | _ :: rest => syncDoneBroadcasts rest

/-- Number of `file_manager.synchronize` invocations in a trace. -/
def countSynchronizeCalls (acts : List PAction) : Nat :=
  acts.countP fun a => a == PAction.synchronizeCall

/-- Whether an action hands metadata to the task manager. -/
def isSetTaskMeta : PAction → Bool
  | PAction.setTaskMeta _ => true
  | _ => false

/-- Whether an action starts a task group. -/
def isInitTaskGroup : PAction → Bool
  | PAction.initTaskGroup _ => true
  | _ => false

/-- Modelled from the spec: `SocketPool.broadcast` (socket-pool.js is
not under src/).  Per the spec it "sends to every currently-registered
Router"; embedded as the list of (router name, fingerprint) deliveries
over a pool snapshot. -/
def broadcastDeliver (pool : List RouterId) (md5 : String) :
    List (String × String) :=
  pool.map fun r => (r.name, md5)

/-- The three one-shot readiness signals awaited in `start`
(gridcontrol.js lines 151-155): `ip:ready`, `discovery:ready`,
`api:ready`. -/
inductive Sig where
  | ip
  | discovery
  | api
deriving DecidableEq

/-- Modelled from the spec: the readiness barrier `Wait(this, [...])`
(lib/wait.js is not under src/).  Per the spec it is a one-shot barrier
over the named signal set: it records which signals have fired and
fires its "ready" transition exactly once, when all three have been
seen; `fireCount` counts the ready transitions. -/
structure WaitState where
  gotIp : Bool
  gotDiscovery : Bool
  gotApi : Bool
  fired : Bool
  fireCount : Nat
deriving DecidableEq

/-- Record the arrival of one signal. -/
def markSig : WaitState → Sig → WaitState
  | s, Sig.ip => { s with gotIp := true }
  | s, Sig.discovery => { s with gotDiscovery := true }
  | s, Sig.api => { s with gotApi := true }

/-- All three signals have been seen. -/
def allGot (s : WaitState) : Bool :=
  s.gotIp && s.gotDiscovery && s.gotApi

/-- One barrier step: record the signal, and fire the ready transition
when this completes the set and the barrier has not fired yet. -/
def waitStep (s : WaitState) (e : Sig) : WaitState :=
  let t := markSig s e
  if allGot t && !t.fired then { t with fired := true, fireCount := t.fireCount + 1 }
  else t

/-- The barrier's initial state: nothing received, not fired. -/
def initWait : WaitState :=
  { gotIp := false, gotDiscovery := false, gotApi := false,
    fired := false, fireCount := 0 }

/-- Run the barrier over an arrival sequence of signals. -/
def runWait (evs : List Sig) : WaitState :=
  evs.foldl waitStep initWait

/-- Actions of one tick of the self-healing interval. -/
inductive DAction where
  | close
  | restart (ns : String)
deriving DecidableEq

/-- One tick of the self-healing timer installed after ready
(gridcontrol.js lines 162-168): when `getRouters().length == 0` it
closes the current `Interplanetary` session and calls
`startDiscovery(this.namespace)`; otherwise it does nothing. -/
def selfHealTick (routerCount : Nat) (ns : String) : List DAction :=
  if routerCount = 0 then [DAction.close, DAction.restart ns] else []

/-- Actions emitted by a sequence of timer ticks, given the router
count observed at each tick; each tick handler runs to completion on
the single event stream before the next. -/
def selfHealTrace : List Nat → String → List DAction
  | [], _ => []
  | c :: cs, ns => selfHealTick c ns ++ selfHealTrace cs ns

/-- Whether an action is a discovery restart. -/
def isRestart : DAction → Bool
  | DAction.restart _ => true
  | DAction.close => false

/-- The trace is a sequence of complete close-then-restart blocks for
namespace `ns`: every restart is immediately preceded by the close of
the current session, and no restart begins inside another block. -/
def restartBlocks (ns : String) : List DAction → Bool
  | [] => true
  | DAction.close :: DAction.restart m :: rest => m == ns && restartBlocks ns rest
  | _ => false

/-- Events of an `Interplanetary` discovery session observed by the
handlers registered in `startDiscovery` (gridcontrol.js lines
228-239): transport errors, the listening confirmation, and inbound
connections. -/
inductive DiscEv where
  | errorEv (msg : String)
  | listeningEv
  | connectionEv
deriving DecidableEq

/-- Callback arguments produced by one event when `startDiscovery` was
given a callback: the `error` handler calls `cb(e)`, the `listening`
handler calls `cb()`, a `connection` event does not touch `cb`.  The
handlers are registered with `on` (not `once`) and share no
already-called flag. -/
def cbCallsOfEv : DiscEv → List (Option String)
  | DiscEv.errorEv m => [some m]
  | DiscEv.listeningEv => [none]
  | DiscEv.connectionEv => []

/-- The sequence of callback invocations (with their argument) over the
lifetime of one discovery session's event stream. -/
def cbInvocations : List DiscEv → List (Option String)
  | [] => []
  | e :: evs => cbCallsOfEv e ++ cbInvocations evs

/-- Whether an event triggers a callback invocation. -/
def isCbEvent : DiscEv → Bool
  | DiscEv.errorEv _ => true
  | DiscEv.listeningEv => true
  | DiscEv.connectionEv => false

/-- C1: the master's `sync:done` handler sets `synchronized` to true
exactly when the reported fingerprint equals the master's current one;
a mismatched report leaves the flag unchanged (so a flag that was false
stays false). -/
theorem syncDone_sets_flag_iff_md5_matches
    (flag : Bool) (reported current : String) :
    (flag = false →
      (syncDoneHandler flag reported current = true ↔ reported = current)) ∧
    (reported ≠ current → syncDoneHandler flag reported current = flag) := by
  constructor
  · intro hflag
    subst hflag
    unfold syncDoneHandler
    by_cases h : reported = current
    · simp [h]
    · simp [h]
  · intro hne
    unfold syncDoneHandler
    simp [hne]

/-- Witness for C1 at concrete inputs: a matching report flips the flag
to true, a mismatched report leaves it false. -/
theorem syncDone_sets_flag_iff_md5_matches_witness :
    syncDoneHandler false "abc123" "abc123" = true ∧
    syncDoneHandler false "zzz" "abc123" = false := by
  refine ⟨?_, ?_⟩
  · exact ((syncDone_sets_flag_iff_md5_matches false "abc123" "abc123").1 rfl).mpr rfl
  · exact (syncDone_sets_flag_iff_md5_matches false "zzz" "abc123").2 (by decide)

/-- C7: `askAllPeersToSync` resets every router's `synchronized` flag
to false (keeping its identity) and re-sends a `sync` offer to every
router of the pool, including routers previously marked synchronized. -/
theorem askAllPeersToSync_resets_and_reoffers
    (st : MasterView) (routers : List RouterId) :
    List.Forall₂
      (fun r out => out.synchronized = false ∧ out.name = r.name ∧
        out.public_ip = r.public_ip)
      routers (askAllPeersToSync st routers).1 ∧
    List.Forall₂ (fun r msg => msg = (r.name, mkSyncMsg st))
      routers (askAllPeersToSync st routers).2 := by
  unfold askAllPeersToSync
  constructor
  · induction routers with
    | nil => simp
    | cons r rs ih => exact List.Forall₂.cons (by simp) ih
  · induction routers with
    | nil => simp
    | cons r rs ih => exact List.Forall₂.cons (by simp [askPeerToSync]) ih

/-- C8 counterexample: calling `stopDiscovery` on a node where
discovery was never started dereferences the undefined `Interplanetary`
property and throws, rather than being a no-op. -/
theorem stopDiscovery_before_start_throws :
    stopDiscovery none =
      Except.error "TypeError: Cannot read property close of undefined" := rfl

/-- C8 amended: `stopDiscovery` is safe (a plain close, no crash) in
every state in which `startDiscovery` has assigned the session object,
even if discovery never finished starting. -/
theorem stopDiscovery_safe_after_start (s : DiscoverySession) :
    stopDiscovery (some s) = Except.ok () := rfl

/-- C10: with the test-mode flag set the `trigger` handler replies
immediately with no error and no result, independent of the
task-execution collaborator (it is never consulted); without the flag
it forwards the collaborator's `(err, res)` pair verbatim for the
request built from the packet. -/
theorem trigger_handler_test_mode_and_passthrough
    (packet : TriggerPacket)
    (triggerTask : TaskRequest → Option String × Option String) :
    triggerHandler true packet triggerTask = (none, none) ∧
    (∀ exec1 exec2 : TaskRequest → Option String × Option String,
      triggerHandler true packet exec1 = triggerHandler true packet exec2) ∧
    triggerHandler false packet triggerTask =
      triggerTask ⟨packet.task_id, packet.data, packet.opts⟩ := by
  refine ⟨rfl, fun exec1 exec2 => rfl, rfl⟩

/-- Decoding inverts encoding on each hex digit of a value below 16. -/
theorem hexVal_hexDigit : ∀ n : Fin 16, hexVal (hexDigit n) = n := by decide

/-- Decoding a hex buffer of bytes below 256 recovers the bytes. -/
theorem decodeHex_bufferToHex (bs : List Nat) (h : ∀ b ∈ bs, b < 256) :
    decodeHex (bufferToHex bs) = bs := by
  induction bs with
  | nil => rfl
  | cons b rest ih =>
    have hb : b < 256 := h b (List.mem_cons_self b rest)
    have hdiv : b / 16 < 16 := Nat.div_lt_of_lt_mul (by omega)
    have hmod : b % 16 < 16 := Nat.mod_lt b (by omega)
    have h1 : hexVal (hexDigit (b / 16)) = b / 16 := hexVal_hexDigit ⟨b / 16, hdiv⟩
    have h2 : hexVal (hexDigit (b % 16)) = b % 16 := hexVal_hexDigit ⟨b % 16, hmod⟩
    have hrest : decodeHex (bufferToHex rest) = rest :=
      ih fun x hx => h x (List.mem_cons_of_mem b hx)
    simp only [bufferToHex, byteToHex, List.cons_append, List.nil_append, decodeHex,
      h1, h2]
    rw [Nat.div_add_mod]
    simp [hrest]

/-- Every byte of the fixed suffix tag is below 256. -/
theorem suffixTag_bytes_lt : ∀ b ∈ suffixTag, b < 256 := by decide

/-- C9: the rendezvous key derivation is deterministic and injective on
namespaces: two byte-level namespaces derive the same topic key exactly
when they are equal, so equal namespaces always rendezvous on the same
key and distinct namespaces never share a key. -/
theorem namespaceKey_deterministic_injective
    (a b : List Nat) (ha : ∀ x ∈ a, x < 256) (hb : ∀ x ∈ b, x < 256) :
    deriveNamespaceKey a = deriveNamespaceKey b ↔ a = b := by
  constructor
  · intro h
    have hkey : decodeHex (bufferToHex (a ++ suffixTag)) =
        decodeHex (bufferToHex (b ++ suffixTag)) := by
      unfold deriveNamespaceKey at h
      rw [h]
    have hba : ∀ x ∈ a ++ suffixTag, x < 256 := by
      intro x hx
      rcases List.mem_append.mp hx with hxa | hxs
      · exact ha x hxa
      · exact suffixTag_bytes_lt x hxs
    have hbb : ∀ x ∈ b ++ suffixTag, x < 256 := by
      intro x hx
      rcases List.mem_append.mp hx with hxb | hxs
      · exact hb x hxb
      · exact suffixTag_bytes_lt x hxs
    rw [decodeHex_bufferToHex _ hba, decodeHex_bufferToHex _ hbb] at hkey
    exact List.append_cancel_right hkey
  · intro h
    rw [h]

/-- Witness for C9 applied to the concrete byte namespaces `[97]` and
`[98]` (the strings "a" and "b"). -/
theorem namespaceKey_deterministic_injective_witness :
    deriveNamespaceKey [97] = deriveNamespaceKey [98] ↔ [97] = [98] :=
  namespaceKey_deterministic_injective [97] [98] (by decide) (by decide)

/-- C5: when the persist/unpack collaborator reports an error, the
replica's `sync` handler logs that error, broadcasts no `sync:done`
(for any fingerprint), calls `synchronize` exactly once (no automatic
retry), and hands nothing to the task manager. -/
theorem sync_error_logs_and_no_broadcast
    (st : ReplicaView) (data : SyncMsg) (e : String) (test_env : Bool) :
    PAction.logError e ∈ syncHandler st data (Except.error e) test_env ∧
    syncDoneBroadcasts (syncHandler st data (Except.error e) test_env) = [] ∧
    countSynchronizeCalls (syncHandler st data (Except.error e) test_env) = 1 ∧
    (syncHandler st data (Except.error e) test_env).countP isSetTaskMeta = 0 ∧
    (syncHandler st data (Except.error e) test_env).countP isInitTaskGroup = 0 := by
  refine ⟨?_, rfl, ?_, ?_, ?_⟩
  · simp [syncHandler]
  · simp [syncHandler, countSynchronizeCalls, List.countP_cons]
  · simp [syncHandler, List.countP_cons, isSetTaskMeta]
  · simp [syncHandler, List.countP_cons, isInitTaskGroup]

/-- C6 counterexample: with the replica's own current fingerprint being
"aaa" while the incoming offer carries "bbb", the successful `sync`
handler broadcasts `sync:done` with "bbb" — the offer's fingerprint,
not the node's current one. -/
theorem sync_done_carries_offer_md5_not_current :
    syncDoneBroadcasts
      (syncHandler ⟨"aaa"⟩
        ⟨"1.2.3.4", "10.0.0.1", ⟨1, "cfg", "folder", "env", none⟩, "bbb"⟩
        (Except.ok ⟨"dest"⟩) false) = ["bbb"] ∧
    (ReplicaView.mk "aaa").fm_current_md5 = "aaa" ∧
    (("bbb" : String) == "aaa") = false := by
  refine ⟨rfl, rfl, by decide⟩

/-- C6 amended: on persist success the replica attaches the unpack
folder as `base_folder`, hands that metadata to the task manager before
the acknowledgment, and broadcasts a single `sync:done` carrying the
fingerprint from the incoming offer (`data.curr_md5`) to the entire
socket pool (every registered router receives it). -/
theorem sync_success_broadcasts_offer_md5_to_pool
    (st : ReplicaView) (data : SyncMsg) (meta : FMeta) (test_env : Bool) :
    syncDoneBroadcasts (syncHandler st data (Except.ok meta) test_env) =
      [data.curr_md5] ∧
    PAction.setTaskMeta { data.meta with base_folder := some meta.dest_folder } ∈
      syncHandler st data (Except.ok meta) test_env ∧
    (∃ pre, syncHandler st data (Except.ok meta) test_env =
        pre ++ [PAction.broadcast "sync:done" data.curr_md5] ∧
      PAction.setTaskMeta { data.meta with base_folder := some meta.dest_folder } ∈
        pre) ∧
    (∀ pool : List RouterId,
      List.Forall₂ (fun r d => d = (r.name, data.curr_md5))
        pool (broadcastDeliver pool data.curr_md5)) := by
  refine ⟨?_, ?_, ?_, ?_⟩
  · cases test_env <;> simp [syncHandler, syncDoneBroadcasts]
  · cases test_env <;> simp [syncHandler]
  · cases test_env
    · exact ⟨[PAction.synchronizeCall,
        PAction.setTaskMeta { data.meta with base_folder := some meta.dest_folder },
        PAction.emitFilesSynchronized,
        PAction.initTaskGroup { data.meta with base_folder := some meta.dest_folder }],
        by simp [syncHandler], by simp⟩
    · exact ⟨[PAction.synchronizeCall,
        PAction.setTaskMeta { data.meta with base_folder := some meta.dest_folder },
        PAction.emitFilesSynchronized],
        by simp [syncHandler], by simp⟩
  · intro pool
    induction pool with
    | nil => simp [broadcastDeliver]
    | cons r rs ih =>
      exact List.Forall₂.cons rfl ih

/-- One barrier step records an `ip` signal exactly in the `gotIp`
flag. -/
theorem waitStep_gotIp (s : WaitState) (e : Sig) :
    (waitStep s e).gotIp = (s.gotIp || decide (Sig.ip = e)) := by
  rcases s with ⟨a, b, c, f, n⟩
  cases e <;> cases a <;> cases b <;> cases c <;> cases f <;> rfl

/-- One barrier step records a `discovery` signal exactly in the
`gotDiscovery` flag. -/
theorem waitStep_gotDiscovery (s : WaitState) (e : Sig) :
    (waitStep s e).gotDiscovery = (s.gotDiscovery || decide (Sig.discovery = e)) := by
  rcases s with ⟨a, b, c, f, n⟩
  cases e <;> cases a <;> cases b <;> cases c <;> cases f <;> rfl

/-- One barrier step records an `api` signal exactly in the `gotApi`
flag. -/
theorem waitStep_gotApi (s : WaitState) (e : Sig) :
    (waitStep s e).gotApi = (s.gotApi || decide (Sig.api = e)) := by
  rcases s with ⟨a, b, c, f, n⟩
  cases e <;> cases a <;> cases b <;> cases c <;> cases f <;> rfl

/-- A barrier that has fired stays fired. -/
theorem waitStep_fired_true (s : WaitState) (e : Sig) (h : s.fired = true) :
    (waitStep s e).fired = true := by
  rcases s with ⟨a, b, c, f, n⟩
  cases f
  · exact Bool.noConfusion h
  · cases e <;> cases a <;> cases b <;> cases c <;> rfl

/-- One barrier step preserves the invariant that the barrier has fired
exactly when all three signals have been seen. -/
theorem waitStep_inv (s : WaitState) (e : Sig) (h : s.fired = allGot s) :
    (waitStep s e).fired = allGot (waitStep s e) := by
  rcases s with ⟨a, b, c, f, n⟩
  cases e <;> cases a <;> cases b <;> cases c <;> cases f <;>
    first
      | rfl
      | exact Bool.noConfusion h

/-- One barrier step adds a ready transition exactly when it flips the
`fired` flag. -/
theorem waitStep_fireCount (s : WaitState) (e : Sig) :
    (waitStep s e).fireCount =
      s.fireCount + (if (waitStep s e).fired && !s.fired then 1 else 0) := by
  rcases s with ⟨a, b, c, f, n⟩
  cases e <;> cases a <;> cases b <;> cases c <;> cases f <;> rfl

/-- Running the barrier records an `ip` signal exactly when one occurs
in the arrival sequence. -/
theorem foldl_waitStep_gotIp (evs : List Sig) (s : WaitState) :
    (evs.foldl waitStep s).gotIp = (s.gotIp || decide (Sig.ip ∈ evs)) := by
  induction evs generalizing s with
  | nil => simp
  | cons e evs ih =>
    rw [List.foldl_cons, ih, waitStep_gotIp]
    by_cases h1 : Sig.ip = e <;> by_cases h2 : Sig.ip ∈ evs <;>
      simp [h1, h2, List.mem_cons, Bool.or_assoc]

/-- Running the barrier records a `discovery` signal exactly when one
occurs in the arrival sequence. -/
theorem foldl_waitStep_gotDiscovery (evs : List Sig) (s : WaitState) :
    (evs.foldl waitStep s).gotDiscovery =
      (s.gotDiscovery || decide (Sig.discovery ∈ evs)) := by
  induction evs generalizing s with
  | nil => simp
  | cons e evs ih =>
    rw [List.foldl_cons, ih, waitStep_gotDiscovery]
    by_cases h1 : Sig.discovery = e <;> by_cases h2 : Sig.discovery ∈ evs <;>
      simp [h1, h2, List.mem_cons, Bool.or_assoc]

/-- Running the barrier records an `api` signal exactly when one occurs
in the arrival sequence. -/
theorem foldl_waitStep_gotApi (evs : List Sig) (s : WaitState) :
    (evs.foldl waitStep s).gotApi = (s.gotApi || decide (Sig.api ∈ evs)) := by
  induction evs generalizing s with
  | nil => simp
  | cons e evs ih =>
    rw [List.foldl_cons, ih, waitStep_gotApi]
    by_cases h1 : Sig.api = e <;> by_cases h2 : Sig.api ∈ evs <;>
      simp [h1, h2, List.mem_cons, Bool.or_assoc]

/-- The fired-iff-all-seen invariant is preserved by any arrival
sequence. -/
theorem foldl_waitStep_inv (evs : List Sig) (s : WaitState)
    (h : s.fired = allGot s) :
    (evs.foldl waitStep s).fired = allGot (evs.foldl waitStep s) := by
  induction evs generalizing s with
  | nil => simpa using h
  | cons e evs ih => exact ih _ (waitStep_inv s e h)

/-- A barrier that has fired stays fired over any arrival sequence. -/
theorem foldl_waitStep_fired_mono (evs : List Sig) (s : WaitState)
    (h : s.fired = true) :
    (evs.foldl waitStep s).fired = true := by
  induction evs generalizing s with
  | nil => simpa using h
  | cons e evs ih => exact ih _ (waitStep_fired_true s e h)

/-- Over any arrival sequence the barrier adds exactly one ready
transition when it ends fired having started unfired, and none
otherwise. -/
theorem foldl_waitStep_fireCount (evs : List Sig) (s : WaitState) :
    (evs.foldl waitStep s).fireCount =
      s.fireCount +
        (if (evs.foldl waitStep s).fired && !s.fired then 1 else 0) := by
  induction evs generalizing s with
  | nil => cases h : s.fired <;> simp [h]
  | cons e evs ih =>
    rw [List.foldl_cons, ih (waitStep s e), waitStep_fireCount s e]
    by_cases hs : s.fired = true
    · have hs2 : (waitStep s e).fired = true := waitStep_fired_true s e hs
      have ht : (evs.foldl waitStep (waitStep s e)).fired = true :=
        foldl_waitStep_fired_mono evs _ hs2
      simp [hs, hs2, ht]
    · have hs0 : s.fired = false := by
        cases h2 : s.fired
        · rfl
        · exact absurd h2 hs
      by_cases hs2 : (waitStep s e).fired = true
      · have ht : (evs.foldl waitStep (waitStep s e)).fired = true :=
          foldl_waitStep_fired_mono evs _ hs2
        simp [hs0, hs2, ht]
      · have hs20 : (waitStep s e).fired = false := by
          cases h2 : (waitStep s e).fired
          · rfl
          · exact absurd h2 hs2
        cases ht : (evs.foldl waitStep (waitStep s e)).fired <;>
          simp [hs0, hs20, ht]

/-- The barrier run from its initial state ends fired exactly when all
three signals occur in the arrival sequence. -/
theorem runWait_fired_iff (evs : List Sig) :
    (runWait evs).fired = true ↔
      (Sig.ip ∈ evs ∧ Sig.discovery ∈ evs ∧ Sig.api ∈ evs) := by
  have hinv := foldl_waitStep_inv evs initWait rfl
  have h1 := foldl_waitStep_gotIp evs initWait
  have h2 := foldl_waitStep_gotDiscovery evs initWait
  have h3 := foldl_waitStep_gotApi evs initWait
  unfold runWait
  rw [hinv]
  unfold allGot
  rw [h1, h2, h3]
  simp [initWait, and_assoc]

/-- C2: the readiness barrier resolves exactly once over any arrival
sequence in which all three one-shot signals occur (in any order, even
with re-emitted duplicates), and never resolves when at least one
signal is missing from the sequence. -/
theorem readiness_barrier_fires_exactly_once (evs : List Sig) :
    (runWait evs).fireCount =
      (if Sig.ip ∈ evs ∧ Sig.discovery ∈ evs ∧ Sig.api ∈ evs then 1 else 0) ∧
    ((runWait evs).fired = true ↔
      (Sig.ip ∈ evs ∧ Sig.discovery ∈ evs ∧ Sig.api ∈ evs)) := by
  refine ⟨?_, runWait_fired_iff evs⟩
  have hcount := foldl_waitStep_fireCount evs initWait
  by_cases hmem : Sig.ip ∈ evs ∧ Sig.discovery ∈ evs ∧ Sig.api ∈ evs
  · have hf : (runWait evs).fired = true := (runWait_fired_iff evs).mpr hmem
    unfold runWait at hf ⊢
    rw [hcount, hf]
    simp [initWait, hmem]
  · have hf : (runWait evs).fired ≠ true :=
      fun h => hmem ((runWait_fired_iff evs).mp h)
    have hf0 : (runWait evs).fired = false := by
      cases h2 : (runWait evs).fired
      · rfl
      · exact absurd h2 hf
    unfold runWait at hf0 ⊢
    rw [hcount, hf0]
    simp [initWait, hmem]

/-- C3: over any sequence of self-healing timer ticks, discovery is
closed and restarted with the unchanged namespace exactly once per tick
that observes zero connected routers; the emitted action trace consists
of complete close-then-restart blocks (no restart begins while another
block is open); and a tick that observes a connected router emits
nothing. -/
theorem selfHeal_restarts_once_per_zero_tick (counts : List Nat) (ns : String) :
    (selfHealTrace counts ns).countP isRestart =
      counts.countP (fun c => c == 0) ∧
    restartBlocks ns (selfHealTrace counts ns) = true ∧
    (∀ c ∈ counts, c ≠ 0 → selfHealTick c ns = []) := by
  refine ⟨?_, ?_, ?_⟩
  · induction counts with
    | nil => rfl
    | cons c cs ih =>
      by_cases hc : c = 0 <;>
        simp [selfHealTrace, selfHealTick, hc, List.countP_append,
          List.countP_cons, isRestart, ih]
  · induction counts with
    | nil => rfl
    | cons c cs ih =>
      by_cases hc : c = 0
      · subst hc
        simpa [selfHealTrace, selfHealTick, restartBlocks] using ih
      · simpa [selfHealTrace, selfHealTick, hc] using ih
  · intro c hc hne
    simp [selfHealTick, hne]

/-- Witness for C3 on the concrete tick sequence `[0, 2]`: one restart
in total, and the tick observing two routers emits nothing. -/
theorem selfHeal_restarts_once_per_zero_tick_witness :
    (selfHealTrace [0, 2] "pm2:fs").countP isRestart = 1 ∧
    selfHealTick 2 "pm2:fs" = [] := by
  have h := selfHeal_restarts_once_per_zero_tick [0, 2] "pm2:fs"
  refine ⟨?_, h.2.2 2 (by decide) (by decide)⟩
  rw [h.1]
  decide

/-- C4 counterexample: a discovery session in which a transport error
is followed by the listening confirmation invokes the `startDiscovery`
callback twice, once with the error and once with no error — refuting
the claim that the callback is invoked exactly once even when both an
error event and a listening event occur. -/
theorem startDiscovery_cb_called_twice :
    cbInvocations [DiscEv.errorEv "boom", DiscEv.listeningEv] =
      [some "boom", none] ∧
    (cbInvocations [DiscEv.errorEv "boom", DiscEv.listeningEv]).length = 2 :=
  ⟨rfl, rfl⟩

/-- C4 amended: the callback is invoked once per `error` event (with
that error) and once per `listening` event (with no error) — so exactly
once on a session whose event stream contains exactly one such event,
but repeatedly when both or duplicated events occur. -/
theorem startDiscovery_cb_once_per_event (evs : List DiscEv) :
    (cbInvocations evs).length = evs.countP isCbEvent ∧
    (∀ arg ∈ cbInvocations evs,
      (∃ m, arg = some m ∧ DiscEv.errorEv m ∈ evs) ∨
      (arg = none ∧ DiscEv.listeningEv ∈ evs)) := by
  induction evs with
  | nil =>
    refine ⟨rfl, ?_⟩
    intro arg harg
    exact absurd harg (List.not_mem_nil arg)
  | cons e evs ih =>
    refine ⟨?_, ?_⟩
    · cases e <;>
        simp [cbInvocations, cbCallsOfEv, List.countP_cons, isCbEvent, ih.1]
    · intro arg harg
      cases e with
      | errorEv m =>
        simp only [cbInvocations, cbCallsOfEv, List.cons_append, List.nil_append,
          List.mem_cons] at harg
        rcases harg with h | h
        · exact Or.inl ⟨m, h, List.mem_cons_self _ _⟩
        · rcases ih.2 arg h with ⟨m2, hm2, hmem⟩ | ⟨hn, hmem⟩
          · exact Or.inl ⟨m2, hm2, List.mem_cons_of_mem _ hmem⟩
          · exact Or.inr ⟨hn, List.mem_cons_of_mem _ hmem⟩
      | listeningEv =>
        simp only [cbInvocations, cbCallsOfEv, List.cons_append, List.nil_append,
          List.mem_cons] at harg
        rcases harg with h | h
        · exact Or.inr ⟨h, List.mem_cons_self _ _⟩
        · rcases ih.2 arg h with ⟨m2, hm2, hmem⟩ | ⟨hn, hmem⟩
          · exact Or.inl ⟨m2, hm2, List.mem_cons_of_mem _ hmem⟩
          · exact Or.inr ⟨hn, List.mem_cons_of_mem _ hmem⟩
      | connectionEv =>
        simp only [cbInvocations, cbCallsOfEv, List.nil_append] at harg
        rcases ih.2 arg harg with ⟨m2, hm2, hmem⟩ | ⟨hn, hmem⟩
        · exact Or.inl ⟨m2, hm2, List.mem_cons_of_mem _ hmem⟩
        · exact Or.inr ⟨hn, List.mem_cons_of_mem _ hmem⟩

/-- Witness for C4's amended statement on a session with a single
listening event: the callback runs exactly once, with no error. -/
theorem startDiscovery_cb_once_per_event_witness :
    (cbInvocations [DiscEv.listeningEv]).length = 1 ∧
    ((∃ m, (none : Option String) = some m ∧
        DiscEv.errorEv m ∈ [DiscEv.listeningEv]) ∨
      ((none : Option String) = none ∧
        DiscEv.listeningEv ∈ [DiscEv.listeningEv])) := by
  have h := startDiscovery_cb_once_per_event [DiscEv.listeningEv]
  refine ⟨?_, h.2 none (by decide)⟩
  rw [h.1]
  decide
